import Mathlib

/-!
Verification of the reference-counted file-object lifecycle core of
fs/file_table.c (the handle-object allocator, refcounting, teardown and
deferred reclamation described by the design spec).

The embedding below translates the source functions of file_table.c
(get_empty_filp, drop_file_write_access, __fput, fput, put_filp, file_free,
file_free_rcu) into pure Lean functions over explicit state records.
Observable calls into collaborator subsystems (fsnotify, eventpoll, locks,
security, ima, cdev, dput, mntput, ...) are recorded as events in an emitted
trace, in the statement order of the source; state the claims examine
(the percpu live counter, inode write/read counts, mount writer count, the
object's own fields, the pending RCU callbacks) is modelled explicitly.
-/

/-- Observable actions of the lifecycle code, one constructor per call site
kind that the claims talk about.  A teardown or free run emits these in the
statement order of the source. -/
inductive Event
  | fsnotifyClose
  | eventpollRelease
  | locksRemoveFile
  | fasyncDisable (arg : Int)
  | fopRelease
  | securityFileFree
  | imaFileFree
  | cdevPut
  | fopsPut
  | putPid
  | iReadcountDec
  | putWriteAccess
  | mntDropWrite
  | fileReleaseWrite
  | clearAssoc
  | nrFilesDec
  | fileCheckState
  | callRcu
  | putCred
  | kmemCacheFree
  | dput
  | mntput
deriving DecidableEq

/-- Modelled from the spec: the Global Counter, missing from the staged
sources (lib/percpu_counter.c) — an approximate, per-execution-unit sharded
counter supporting fast increment/decrement and a slow, exact aggregate read.
Mutations target the calling unit's shard and are folded into the shared
approximate total only when the shard's magnitude reaches the batch
threshold, so the fast read may lag the exact sum ("sharded counters may
undercount transiently"). -/
structure PercpuCounter where
  count : Int
  shards : List Int
  batch : Nat
deriving DecidableEq

/-- Modelled from the spec: add an amount to the calling unit's shard,
folding into the shared total at the batch threshold. -/
def percpu_counter_add (cpu : Nat) (amount : Int) (c : PercpuCounter) : PercpuCounter :=
  let pcount := c.shards.getD cpu 0 + amount
  if (c.batch : Int) ≤ pcount ∨ pcount ≤ -(c.batch : Int) then
    { c with count := c.count + pcount, shards := c.shards.set cpu 0 }
  else
    { c with shards := c.shards.set cpu pcount }

def percpu_counter_inc (cpu : Nat) (c : PercpuCounter) : PercpuCounter :=
  percpu_counter_add cpu 1 c

def percpu_counter_dec (cpu : Nat) (c : PercpuCounter) : PercpuCounter :=
  percpu_counter_add cpu (-1) c

/-- Modelled from the spec: the fast approximate read (never negative). -/
def percpu_counter_read_positive (c : PercpuCounter) : Int :=
  max c.count 0

/-- Modelled from the spec: the exact aggregate sum across all shards. -/
def percpu_counter_sum (c : PercpuCounter) : Int :=
  c.count + c.shards.sum

/-- Modelled from the spec: the slow, exact aggregate read (never negative). -/
def percpu_counter_sum_positive (c : PercpuCounter) : Int :=
  max (percpu_counter_sum c) 0

/-- The kind a backing inode's i_mode encodes; what the S_IS* tests read. -/
inductive IMode
  | regular
  | directory
  | symlink
  | chr
  | blk
  | fifo
  | sock
deriving DecidableEq

/-- special_file(m): character, block, fifo or socket inode. -/
def special_file (m : IMode) : Bool :=
  match m with
  | IMode.chr => true
  | IMode.blk => true
  | IMode.fifo => true
  | IMode.sock => true
  | _ => false

def S_ISCHR (m : IMode) : Bool :=
  match m with
  | IMode.chr => true
  | _ => false

/-- The operation table bound to a file: which of the callbacks __fput
consults are present (non-NULL function pointers). -/
structure FileOperations where
  fasync : Bool
  release : Bool
deriving DecidableEq

/-- FMODE_READ bit of f_mode. -/
def FMODE_READ : Nat := 1
/-- FMODE_WRITE bit of f_mode. -/
def FMODE_WRITE : Nat := 2
/-- FMODE_PATH bit of f_mode. -/
def FMODE_PATH : Nat := 16384
/-- FASYNC bit of f_flags. -/
def FASYNC : Nat := 8192

/-- struct file: the handle object.  Pointer-valued fields are abstracted to
presence (true = non-NULL); f_cred to whether the object still holds its
credential reference; f_mnt_write_taken is modelled from the spec — the
object's own write-access bookkeeping read by the step-7 idempotency guard
(its source, the file_take_write/file_release_write/file_check_writeable
helpers of include/linux/fs.h, is not among the staged files). -/
structure VfsFile where
  f_count : Int
  f_flags : Nat
  f_mode : Nat
  f_op : Option FileOperations
  f_cred : Bool
  f_mnt_write_taken : Bool
  f_path_dentry : Bool
  f_path_mnt : Bool
  f_inode : Bool
deriving DecidableEq

/-- The backing inode fields the lifecycle code touches. -/
structure Inode where
  i_mode : IMode
  i_cdev : Bool
  i_writecount : Int
  i_readcount : Int
deriving DecidableEq

/-- The vfsmount fields the lifecycle code touches. -/
structure Mnt where
  mnt_writers : Int
deriving DecidableEq

/-- files_stat plus the global counter and the deferred-reclamation queue:
rcu_pending counts file_free_rcu callbacks scheduled but not yet run. -/
structure FTState where
  nr_files : PercpuCounter
  max_files : Nat
  old_max : Int
  rcu_pending : Nat
deriving DecidableEq

/-- The state a single file's teardown reads and writes: the file itself,
its backing inode and mount, and the global file-table state. -/
structure KernelState where
  f : VfsFile
  inode : Inode
  mnt : Mnt
  ft : FTState
deriving DecidableEq

/-- Modelled from the spec: file_check_writeable — zero (here true) exactly
when the object's own bookkeeping still shows it holding the write claim. -/
def file_check_writeable (f : VfsFile) : Bool :=
  f.f_mnt_write_taken

/-- Modelled from the spec: file_release_write — mark the object's own
bookkeeping as no longer holding the write claim. -/
def file_release_write (f : VfsFile) : VfsFile :=
  { f with f_mnt_write_taken := false }

/-- file_free_rcu: the deferred-reclamation callback, run only after the RCU
grace period.  It releases the captured credentials (put_cred) and returns
the record to the pool (kmem_cache_free). -/
def file_free_rcu (f : VfsFile) : VfsFile × List Event :=
  ({ f with f_cred := false }, [Event.putCred, Event.kmemCacheFree])

/-- file_free: decrement the live counter, debug-check the object and
schedule file_free_rcu through call_rcu.  Runs synchronously in its caller;
the two arguments mirror the source (the file being freed and, implicitly,
the global state it updates). -/
def file_free (cpu : Nat) (_f : VfsFile) (st : FTState) : FTState × List Event :=
  ({ st with nr_files := percpu_counter_dec cpu st.nr_files,
             rcu_pending := st.rcu_pending + 1 },
   [Event.nrFilesDec, Event.fileCheckState, Event.callRcu])

/-- get_nr_files: the fast approximate read of the live count. -/
def get_nr_files (st : FTState) : Int :=
  percpu_counter_read_positive st.nr_files

/-- get_max_files: the admission ceiling. -/
def get_max_files (st : FTState) : Nat :=
  st.max_files

/-- Which path get_empty_filp took.  The source collapses every failure to a
NULL return; the constructor records the goto label that produced it
(overLimit = the over label, noMem = kmem_cache_zalloc returning NULL,
secDenied = security_file_alloc rejecting the new object). -/
inductive FilpResult
  | ok (f : VfsFile)
  | overLimit
  | noMem
  | secDenied
deriving DecidableEq

/-- kmem_cache_zalloc result: a zero-initialized record (all capability and
mode bits off, every pointer NULL). -/
def zeroFile : VfsFile :=
  { f_count := 0, f_flags := 0, f_mode := 0, f_op := none, f_cred := false,
    f_mnt_write_taken := false, f_path_dentry := false, f_path_mnt := false,
    f_inode := false }

/-- The file get_empty_filp hands back on success: zeroed record, captured
credentials, refcount set to 1 (locks and eventpoll fields initialized). -/
def filpInit : VfsFile :=
  { zeroFile with f_cred := true, f_count := 1 }

/-- The allocation tail of get_empty_filp (everything after the admission
check has been passed or bypassed): kmem_cache_zalloc, counter increment,
get_cred, security_file_alloc, refcount initialization.  allocOk models
whether the pool allocation succeeds, secOk whether the security hook admits
the object; on a security denial the already-performed increment is rolled
back through file_free. -/
def filp_alloc_path (cpu : Nat) (allocOk secOk : Bool) (st : FTState) :
    FilpResult × FTState × List Event :=
  if allocOk = false then (FilpResult.noMem, st, [])
  else
    let st1 : FTState := { st with nr_files := percpu_counter_inc cpu st.nr_files }
    let f : VfsFile := { zeroFile with f_cred := true }
    if secOk = false then
      let r := file_free cpu f st1
      (FilpResult.secDenied, r.1, r.2)
    else
      (FilpResult.ok { f with f_count := 1 }, st1, [])

/-- get_empty_filp: admission check (fast approximate read, then — for
unprivileged callers at or over the ceiling — the exact slow-path sum, with
edge-triggered logging bookkeeping on rejection), then the allocation tail.
capSysAdmin models capable(CAP_SYS_ADMIN). -/
def get_empty_filp (cpu : Nat) (capSysAdmin allocOk secOk : Bool) (st : FTState) :
    FilpResult × FTState × List Event :=
  if (st.max_files : Int) ≤ get_nr_files st ∧ capSysAdmin = false then
    if (st.max_files : Int) ≤ percpu_counter_sum_positive st.nr_files then
      let st1 : FTState :=
        if st.old_max < get_nr_files st then { st with old_max := get_nr_files st } else st
      (FilpResult.overLimit, st1, [])
    else filp_alloc_path cpu allocOk secOk st
  else filp_alloc_path cpu allocOk secOk st

/-- drop_file_write_access: put_write_access(inode) unconditionally
decrements the inode's writer count; then, unless the inode is a special
file or the object's own bookkeeping no longer shows the claim held
(idempotency guard), drop the mount-writable claim and clear the
bookkeeping. -/
def drop_file_write_access (k : KernelState) : KernelState × List Event :=
  let k1 : KernelState :=
    { k with inode := { k.inode with i_writecount := k.inode.i_writecount - 1 } }
  if special_file k.inode.i_mode then (k1, [Event.putWriteAccess])
  else if file_check_writeable k.f = false then (k1, [Event.putWriteAccess])
  else
    ({ k1 with mnt := { k.mnt with mnt_writers := k.mnt.mnt_writers - 1 },
               f := file_release_write k.f },
     [Event.putWriteAccess, Event.mntDropWrite, Event.fileReleaseWrite])

/-- Guard of the fasync teardown step: the object carries FASYNC and its
operation table provides a fasync entry. -/
def fasyncTriggered (f : VfsFile) : Bool :=
  (decide ((f.f_flags &&& FASYNC) ≠ 0)) &&
    (match f.f_op with
     | some op => op.fasync
     | none => false)

/-- Guard of the operation-table release step. -/
def fopReleaseTriggered (f : VfsFile) : Bool :=
  match f.f_op with
  | some op => op.release
  | none => false

/-- Guard of the cdev_put step: character inode with a cdev, not a
path-only object. -/
def cdevTriggered (f : VfsFile) (i : Inode) : Bool :=
  S_ISCHR i.i_mode && i.i_cdev && (decide ((f.f_mode &&& FMODE_PATH) = 0))

/-- Guard of the read-count decrement: mode is readable and not writable. -/
def readDecTriggered (f : VfsFile) : Bool :=
  decide ((f.f_mode &&& (FMODE_READ ||| FMODE_WRITE)) = FMODE_READ)

/-- Guard of the write-claim drop: mode is writable. -/
def writeDropTriggered (f : VfsFile) : Bool :=
  decide ((f.f_mode &&& FMODE_WRITE) ≠ 0)

/-- The Teardown Sequencer, __fput: the statement-ordered cleanup chain run
on the last reference drop — fsnotify_close, eventpoll_release,
locks_remove_file, conditional fasync disable with sentinel -1, conditional
operation-table release, security_file_free, ima_file_free, conditional
cdev_put, fops_put, put_pid, conditional i_readcount_dec, conditional
drop_file_write_access, clearing of the resource-association fields, then
file_free (which schedules the deferred reclamation) and the dput/mntput
citations release. -/
def __fput (cpu : Nat) (k : KernelState) : KernelState × List Event :=
  let pre : List Event :=
    [Event.fsnotifyClose, Event.eventpollRelease, Event.locksRemoveFile]
    ++ (if fasyncTriggered k.f then [Event.fasyncDisable (-1)] else [])
    ++ (if fopReleaseTriggered k.f then [Event.fopRelease] else [])
    ++ [Event.securityFileFree, Event.imaFileFree]
    ++ (if cdevTriggered k.f k.inode then [Event.cdevPut] else [])
    ++ [Event.fopsPut, Event.putPid]
  let s8 : KernelState × List Event :=
    if readDecTriggered k.f then
      ({ k with inode := { k.inode with i_readcount := k.inode.i_readcount - 1 } },
       [Event.iReadcountDec])
    else (k, [])
  let s7 : KernelState × List Event :=
    if writeDropTriggered k.f then drop_file_write_access s8.1 else (s8.1, [])
  let k3 : KernelState :=
    { s7.1 with f := { s7.1.f with f_path_dentry := false, f_path_mnt := false,
                                   f_inode := false } }
  let s6 := file_free cpu k3.f k3.ft
  ({ k3 with ft := s6.1 },
   pre ++ s8.2 ++ s7.2 ++ [Event.clearAssoc] ++ s6.2 ++ [Event.dput, Event.mntput])

/-- fput: atomic decrement-and-test; the holder whose decrement reaches zero
runs __fput synchronously. -/
def fput (cpu : Nat) (k : KernelState) : KernelState × List Event :=
  if k.f.f_count - 1 = 0 then
    __fput cpu { k with f := { k.f with f_count := k.f.f_count - 1 } }
  else
    ({ k with f := { k.f with f_count := k.f.f_count - 1 } }, [])

/-- put_filp: the degraded release for objects that failed initialization —
on the final decrement it runs only security_file_free and file_free,
skipping the Teardown Sequencer. -/
def put_filp (cpu : Nat) (k : KernelState) : KernelState × List Event :=
  if k.f.f_count - 1 = 0 then
    let k1 : KernelState := { k with f := { k.f with f_count := k.f.f_count - 1 } }
    let r := file_free cpu k1.f k1.ft
    ({ k1 with ft := r.1 }, [Event.securityFileFree] ++ r.2)
  else
    ({ k with f := { k.f with f_count := k.f.f_count - 1 } }, [])

/-- The statement order of every event site in __fput (including those
inside drop_file_write_access and file_free), as written in the source.
Every concrete teardown trace is a sublist of this list. -/
def fputStepOrder : List Event :=
  [Event.fsnotifyClose, Event.eventpollRelease, Event.locksRemoveFile,
   Event.fasyncDisable (-1), Event.fopRelease, Event.securityFileFree,
   Event.imaFileFree, Event.cdevPut, Event.fopsPut, Event.putPid,
   Event.iReadcountDec, Event.putWriteAccess, Event.mntDropWrite,
   Event.fileReleaseWrite, Event.clearAssoc, Event.nrFilesDec,
   Event.fileCheckState, Event.callRcu, Event.dput, Event.mntput]

/-- A holder's operation on one handle object: retain (get_file, atomic
increment) or release (fput, atomic decrement-and-test). -/
inductive RefOp
  | retain
  | release
deriving DecidableEq

/-- The per-object refcount state the sequence claims range over: the atomic
f_count and how many times teardown (__fput) has run. -/
structure ObjSt where
  count : Int
  teardowns : Nat
deriving DecidableEq

/-- One retain or release, exactly as get_file and fput act on f_count:
retain increments; release decrements and, when the decrement reaches zero,
runs teardown once. -/
def stepOp (s : ObjSt) (op : RefOp) : ObjSt :=
  match op with
  | RefOp.retain => { s with count := s.count + 1 }
  | RefOp.release =>
      if s.count - 1 = 0 then
        { count := s.count - 1, teardowns := s.teardowns + 1 }
      else
        { s with count := s.count - 1 }

/-- Run a sequence of retains and releases from a starting state. -/
def runFrom (s : ObjSt) (l : List RefOp) : ObjSt :=
  l.foldl stepOp s

/-- A sequence is valid when every operation is performed by a holder of a
live reference: the count is at least 1 just before each step. -/
def validFrom (s : ObjSt) : List RefOp → Bool
  | [] => true
  | op :: ops => decide (1 ≤ s.count) && validFrom (stepOp s op) ops

/-- Concrete states used by the closed witness and counterexample runs. -/
def demoOps : FileOperations :=
  { fasync := true, release := true }

def demoInode : Inode :=
  { i_mode := IMode.regular, i_cdev := false, i_writecount := 2, i_readcount := 1 }

def demoFT : FTState :=
  { nr_files := { count := 3, shards := [0], batch := 32 }, max_files := 10,
    old_max := 0, rcu_pending := 0 }

/-- A fully registered read-side file about to drop its last reference. -/
def demoK : KernelState :=
  { f := { f_count := 1, f_flags := 0, f_mode := FMODE_READ, f_op := some demoOps,
           f_cred := true, f_mnt_write_taken := false, f_path_dentry := true,
           f_path_mnt := true, f_inode := true },
    inode := demoInode, mnt := { mnt_writers := 4 }, ft := demoFT }

/-- The same object with two holders still alive. -/
def demoK2 : KernelState :=
  { demoK with f := { demoK.f with f_count := 2 } }

/-- An FASYNC-carrying file whose operation table provides fasync. -/
def demoKfasync : KernelState :=
  { demoK with f := { demoK.f with f_flags := FASYNC } }

/-- Both mode bits of a read-write file. -/
def FMODE_RW : Nat := FMODE_READ ||| FMODE_WRITE

/-- A writable file on a regular inode still holding its write claim. -/
def demoKwrite : KernelState :=
  { demoK with
    f := { demoK.f with f_mode := FMODE_RW, f_mnt_write_taken := true } }

/-- Admission demo: empty table, ceiling 2, batch 32, one execution unit. -/
def ftDemo : FTState :=
  { nr_files := { count := 0, shards := [0], batch := 32 }, max_files := 2,
    old_max := 0, rcu_pending := 0 }

/-- The table after one unprivileged acquire on unit 0. -/
def ftDemo1 : FTState :=
  (get_empty_filp 0 false true true ftDemo).2.1

/-- The table after two unprivileged acquires on unit 0. -/
def ftDemo2 : FTState :=
  (get_empty_filp 0 false true true ftDemo1).2.1

/-- A table whose approximate and exact reads both sit at the ceiling. -/
def ftFull : FTState :=
  { nr_files := { count := 1, shards := [0], batch := 32 }, max_files := 1,
    old_max := 0, rcu_pending := 0 }

/-- Setting an entry of an integer list shifts the sum by the difference
with the entry it replaces. -/
theorem list_sum_set (l : List Int) (i : Nat) (a : Int) (h : i < l.length) :
    (l.set i a).sum = l.sum - l.getD i 0 + a := by
  induction l generalizing i with
  | nil => simp at h
  | cons x xs ih =>
    cases i with
    | zero => simp [List.set]; ring
    | succ n =>
      simp only [List.set, List.sum_cons, List.getD_cons_succ]
      rw [ih n (by simpa using h)]
      ring

/-- percpu_counter_add changes the exact aggregate sum by exactly the amount
added, whether or not the shard folds into the shared total. -/
theorem percpu_counter_sum_add (cpu : Nat) (a : Int) (c : PercpuCounter)
    (h : cpu < c.shards.length) :
    percpu_counter_sum (percpu_counter_add cpu a c) = percpu_counter_sum c + a := by
  simp only [percpu_counter_add, percpu_counter_sum]
  split <;> simp [list_sum_set _ _ _ h] <;> ring

/-- percpu_counter_add keeps the shard count. -/
theorem percpu_counter_add_length (cpu : Nat) (a : Int) (c : PercpuCounter) :
    (percpu_counter_add cpu a c).shards.length = c.shards.length := by
  simp only [percpu_counter_add]
  split <;> simp

/-- A mode whose readable-and-writable mask equals FMODE_READ has the
FMODE_WRITE bit clear. -/
theorem land_write_of_read_only (m : Nat) (h : m &&& 3 = 1) : m &&& 2 = 0 := by
  have h1 : m &&& 2 = (m &&& 3) &&& 2 := by
    rw [Nat.land_assoc]
    rfl
  rw [h1, h]
  rfl

/-- The two step guards of §4.4 steps 7 and 8 are mutually exclusive. -/
theorem readDec_writeDrop_exclusive (f : VfsFile)
    (hr : readDecTriggered f = true) : writeDropTriggered f = false := by
  have hr2 : f.f_mode &&& 3 = 1 := of_decide_eq_true hr
  have hw : f.f_mode &&& 2 = 0 := land_write_of_read_only _ hr2
  simp only [writeDropTriggered, FMODE_WRITE]
  simp [hw]

/-- The invariant of valid retain/release sequences: the final count is the
start count plus retains minus releases, and teardown has run (once) exactly
when the final count is zero. -/
theorem runFrom_valid_spec (l : List RefOp) :
    ∀ s : ObjSt, 1 ≤ s.count → validFrom s l = true →
      (runFrom s l).count
        = s.count + (l.count RefOp.retain : Int) - (l.count RefOp.release : Int)
      ∧ (runFrom s l).teardowns
        = s.teardowns + (if (runFrom s l).count = 0 then 1 else 0) := by
  induction l with
  | nil =>
    intro s hs _
    refine ⟨by simp [runFrom], ?_⟩
    have h0 : runFrom s [] = s := rfl
    rw [h0, if_neg (by omega : ¬ s.count = 0)]
    simp
  | cons op ops ih =>
    intro s hs hv
    have hv1 : (decide (1 ≤ s.count) && validFrom (stepOp s op) ops) = true := hv
    have hv2 : validFrom (stepOp s op) ops = true := by
      rcases Bool.and_eq_true_iff.mp hv1 with ⟨_, h2⟩
      exact h2
    have hrun : runFrom s (op :: ops) = runFrom (stepOp s op) ops := by
      simp [runFrom, List.foldl_cons]
    cases op with
    | retain =>
      have hstep : stepOp s RefOp.retain = { s with count := s.count + 1 } := rfl
      have h1 : 1 ≤ (stepOp s RefOp.retain).count := by
        rw [hstep]; dsimp; omega
      obtain ⟨hc, ht⟩ := ih (stepOp s RefOp.retain) h1 hv2
      refine ⟨?_, ?_⟩
      · rw [hrun, hc, hstep]
        dsimp
        simp [List.count_cons]
        ring
      · rw [hrun, ht, hstep]
    | release =>
      by_cases hz : s.count - 1 = 0
      · have hstep : stepOp s RefOp.release = { count := 0, teardowns := s.teardowns + 1 } := by
          simp [stepOp, hz]
        cases ops with
        | nil =>
          have hend : runFrom s [RefOp.release] = { count := 0, teardowns := s.teardowns + 1 } := by
            simp [runFrom, List.foldl_cons, hstep]
          refine ⟨?_, ?_⟩
          · rw [hend]
            simp [List.count_cons]
            omega
          · rw [hend]
            simp
        | cons op2 ops2 =>
          exfalso
          rw [hstep] at hv2
          have : (decide ((1 : Int) ≤ 0) && validFrom (stepOp ⟨0, s.teardowns + 1⟩ op2) ops2)
              = true := hv2
          simp at this
      · have hstep : stepOp s RefOp.release = { s with count := s.count - 1 } := by
          simp [stepOp, hz]
        have h1 : 1 ≤ (stepOp s RefOp.release).count := by
          rw [hstep]; dsimp; omega
        obtain ⟨hc, ht⟩ := ih (stepOp s RefOp.release) h1 hv2
        refine ⟨?_, ?_⟩
        · rw [hrun, hc, hstep]
          dsimp
          simp [List.count_cons]
          ring
        · rw [hrun, ht, hstep]

/-- C1: for every handle object created with refcount 1 and every valid
sequence of retains and releases on it (each performed by a holder of a live
reference), teardown runs exactly once if and only if the releases number
one more than the retains (acquire plus retains balanced by releases), never
more than once, and a release triggers teardown exactly when its decrement
takes the count from 1 to 0. -/
theorem fput_refcount_conservation (l : List RefOp)
    (hvalid : validFrom { count := 1, teardowns := 0 } l = true) :
    (runFrom { count := 1, teardowns := 0 } l).teardowns ≤ 1
    ∧ ((runFrom { count := 1, teardowns := 0 } l).teardowns = 1
        ↔ l.count RefOp.release = l.count RefOp.retain + 1)
    ∧ ∀ p : List RefOp,
        ((runFrom { count := 1, teardowns := 0 } (p ++ [RefOp.release])).teardowns
            = (runFrom { count := 1, teardowns := 0 } p).teardowns + 1
          ↔ (runFrom { count := 1, teardowns := 0 } p).count = 1) := by
  obtain ⟨hc, ht⟩ := runFrom_valid_spec l { count := 1, teardowns := 0 } (by norm_num) hvalid
  dsimp at hc ht
  refine ⟨?_, ?_, ?_⟩
  · rw [ht]
    split <;> simp
  · rw [ht]
    constructor
    · intro h1
      by_cases h0 : (runFrom { count := 1, teardowns := 0 } l).count = 0
      · rw [h0] at hc
        omega
      · rw [if_neg h0] at h1
        simp at h1
    · intro hrel
      have h0 : (runFrom { count := 1, teardowns := 0 } l).count = 0 := by
        rw [hc]
        omega
      rw [if_pos h0]
  · intro p
    have happ : runFrom { count := 1, teardowns := 0 } (p ++ [RefOp.release])
        = stepOp (runFrom { count := 1, teardowns := 0 } p) RefOp.release := by
      simp [runFrom, List.foldl_append]
    rw [happ]
    constructor
    · intro h1
      by_contra hne
      have : stepOp (runFrom { count := 1, teardowns := 0 } p) RefOp.release
          = { runFrom { count := 1, teardowns := 0 } p with
              count := (runFrom { count := 1, teardowns := 0 } p).count - 1 } := by
        simp [stepOp]
        omega
      rw [this] at h1
      simp at h1
    · intro hone
      simp [stepOp, hone]

/-- Witness for C1 at the concrete valid sequence retain, release, release:
teardown runs exactly once since releases = retains + 1. -/
theorem fput_refcount_conservation_witness :
    (runFrom { count := 1, teardowns := 0 } [RefOp.retain, RefOp.release, RefOp.release]).teardowns ≤ 1
    ∧ ((runFrom { count := 1, teardowns := 0 } [RefOp.retain, RefOp.release, RefOp.release]).teardowns = 1
        ↔ [RefOp.retain, RefOp.release, RefOp.release].count RefOp.release
          = [RefOp.retain, RefOp.release, RefOp.release].count RefOp.retain + 1) :=
  ⟨(fput_refcount_conservation [RefOp.retain, RefOp.release, RefOp.release] (by decide)).1,
   (fput_refcount_conservation [RefOp.retain, RefOp.release, RefOp.release] (by decide)).2.1⟩

/-- Every run of the Teardown Sequencer schedules exactly one deferred
reclamation callback (the call_rcu inside file_free). -/
theorem fput_teardown_schedules_rcu (cpu : Nat) (k : KernelState) :
    (__fput cpu k).1.ft.rcu_pending = k.ft.rcu_pending + 1 := by
  cases hrd : readDecTriggered k.f <;>
  cases hwr : writeDropTriggered k.f <;>
  cases hsp : special_file k.inode.i_mode <;>
  cases hcw : file_check_writeable k.f <;>
  simp [__fput, drop_file_write_access, file_free, hrd, hwr, hsp, hcw]

/-- Every run of the Teardown Sequencer emits the call_rcu scheduling
event. -/
theorem fput_teardown_callRcu_mem (cpu : Nat) (k : KernelState) :
    Event.callRcu ∈ (__fput cpu k).2 := by
  cases hfa : fasyncTriggered k.f <;>
  cases hfr : fopReleaseTriggered k.f <;>
  cases hcd : cdevTriggered k.f k.inode <;>
  cases hrd : readDecTriggered k.f <;>
  cases hwr : writeDropTriggered k.f <;>
  cases hsp : special_file k.inode.i_mode <;>
  cases hcw : file_check_writeable k.f <;>
  simp [__fput, drop_file_write_access, file_free, hfa, hfr, hcd, hrd, hwr, hsp, hcw]

/-- C3: fput atomically decrements the refcount; a nonzero result returns
immediately, changing no field but the refcount and emitting no observable
event; a zero result runs the full Teardown Sequencer __fput synchronously
on the calling context, which ends by scheduling the deferred reclamation
of the object through call_rcu. -/
theorem fput_release_semantics (cpu : Nat) (k : KernelState) :
    (k.f.f_count - 1 ≠ 0 →
      fput cpu k = ({ k with f := { k.f with f_count := k.f.f_count - 1 } }, []))
    ∧ (k.f.f_count - 1 = 0 →
      fput cpu k = __fput cpu { k with f := { k.f with f_count := k.f.f_count - 1 } }
      ∧ (fput cpu k).1.ft.rcu_pending = k.ft.rcu_pending + 1
      ∧ Event.callRcu ∈ (fput cpu k).2) := by
  constructor
  · intro h
    simp [fput, h]
  · intro h
    have he : fput cpu k
        = __fput cpu { k with f := { k.f with f_count := k.f.f_count - 1 } } := by
      simp [fput, h]
    refine ⟨he, ?_, ?_⟩
    · rw [he]
      exact fput_teardown_schedules_rcu cpu
        { k with f := { k.f with f_count := k.f.f_count - 1 } }
    · rw [he]
      exact fput_teardown_callRcu_mem cpu
        { k with f := { k.f with f_count := k.f.f_count - 1 } }

/-- Witness for C3: with two holders the release only decrements, with one
holder the release runs teardown and schedules reclamation. -/
theorem fput_release_semantics_witness :
    fput 0 demoK2 = ({ demoK2 with f := { demoK2.f with f_count := demoK2.f.f_count - 1 } }, [])
    ∧ Event.callRcu ∈ (fput 0 demoK).2 :=
  ⟨(fput_release_semantics 0 demoK2).1 (by decide),
   ((fput_release_semantics 0 demoK).2 (by decide)).2.2⟩

set_option maxHeartbeats 2000000 in
/-- C4: in every teardown, event-notification deregistration
(eventpoll_release, step 2) precedes the clearing of the resource
association fields (step 9); and whenever the async-signal disable step
runs (FASYNC flag with an operation-table fasync entry, step 4, called with
sentinel -1), it falls strictly between the two. -/
theorem fput_teardown_ordering (cpu : Nat) (k : KernelState) :
    List.Sublist [Event.eventpollRelease, Event.clearAssoc] (__fput cpu k).2
    ∧ (fasyncTriggered k.f = true →
        List.Sublist [Event.eventpollRelease, Event.fasyncDisable (-1), Event.clearAssoc]
          (__fput cpu k).2) := by
  constructor
  · cases hfa : fasyncTriggered k.f <;>
    cases hfr : fopReleaseTriggered k.f <;>
    cases hcd : cdevTriggered k.f k.inode <;>
    cases hrd : readDecTriggered k.f <;>
    cases hwr : writeDropTriggered k.f <;>
    cases hsp : special_file k.inode.i_mode <;>
    cases hcw : file_check_writeable k.f <;>
    simp [__fput, drop_file_write_access, file_free, hfa, hfr, hcd, hrd, hwr, hsp, hcw]
  · intro hfa
    cases hfr : fopReleaseTriggered k.f <;>
    cases hcd : cdevTriggered k.f k.inode <;>
    cases hrd : readDecTriggered k.f <;>
    cases hwr : writeDropTriggered k.f <;>
    cases hsp : special_file k.inode.i_mode <;>
    cases hcw : file_check_writeable k.f <;>
    simp [__fput, drop_file_write_access, file_free, hfa, hfr, hcd, hrd, hwr, hsp, hcw]

/-- Witness for C4 on a concrete FASYNC-enabled file. -/
theorem fput_teardown_ordering_witness :
    fasyncTriggered demoKfasync.f = true
    ∧ List.Sublist [Event.eventpollRelease, Event.fasyncDisable (-1), Event.clearAssoc]
        (__fput 0 demoKfasync).2 :=
  ⟨by decide, (fput_teardown_ordering 0 demoKfasync).2 (by decide)⟩

/-- C5 counterexample: in the source the read-count decrement site comes
before the write-claim drop site (the opposite of the claimed §4.4 order
of step 7 before step 8), and no single object ever triggers both — the
concrete read-only teardown emits the read-count decrement and no
write-claim drop, the concrete writable teardown the reverse. -/
theorem readcount_writedrop_order_counterexample :
    List.indexOf Event.iReadcountDec fputStepOrder
      < List.indexOf Event.putWriteAccess fputStepOrder
    ∧ Event.iReadcountDec ∈ (__fput 0 demoK).2
    ∧ ((__fput 0 demoK).2.contains Event.putWriteAccess) = false
    ∧ Event.putWriteAccess ∈ (__fput 0 demoKwrite).2
    ∧ ((__fput 0 demoKwrite).2.contains Event.iReadcountDec) = false := by
  decide

set_option maxHeartbeats 2000000 in
/-- C5 amended: the guards of the read-count decrement (readable and not
writable) and of the write-claim drop (writable) are mutually exclusive, so
no teardown of a single object runs both steps; every teardown trace
follows the one fixed statement order of the source, in which the
read-count decrement site precedes the write-claim drop site. -/
theorem readcount_writedrop_exclusive (cpu : Nat) (k : KernelState) :
    (((__fput cpu k).2.contains Event.iReadcountDec)
      && ((__fput cpu k).2.contains Event.putWriteAccess)) = false
    ∧ List.Sublist (__fput cpu k).2 fputStepOrder := by
  constructor
  · cases hrd : readDecTriggered k.f
    · cases hfa : fasyncTriggered k.f <;>
      cases hfr : fopReleaseTriggered k.f <;>
      cases hcd : cdevTriggered k.f k.inode <;>
      cases hwr : writeDropTriggered k.f <;>
      cases hsp : special_file k.inode.i_mode <;>
      cases hcw : file_check_writeable k.f <;>
      simp [__fput, drop_file_write_access, file_free, hfa, hfr, hcd, hrd, hwr, hsp, hcw]
    · have hwr : writeDropTriggered k.f = false := readDec_writeDrop_exclusive k.f hrd
      cases hfa : fasyncTriggered k.f <;>
      cases hfr : fopReleaseTriggered k.f <;>
      cases hcd : cdevTriggered k.f k.inode <;>
      simp [__fput, drop_file_write_access, file_free, hfa, hfr, hcd, hrd, hwr]
  · cases hfa : fasyncTriggered k.f <;>
    cases hfr : fopReleaseTriggered k.f <;>
    cases hcd : cdevTriggered k.f k.inode <;>
    cases hrd : readDecTriggered k.f <;>
    cases hwr : writeDropTriggered k.f <;>
    cases hsp : special_file k.inode.i_mode <;>
    cases hcw : file_check_writeable k.f <;>
    simp [__fput, drop_file_write_access, file_free, hfa, hfr, hcd, hrd, hwr, hsp, hcw] <;>
    decide

/-- C6 counterexample: on a concrete writable regular file holding its
write claim, two invocations of drop_file_write_access decrement the
inode's write-access counter twice (put_write_access is unconditional), not
once as the claim asserts. -/
theorem drop_write_twice_counterexample :
    (drop_file_write_access (drop_file_write_access demoKwrite).1).1.inode.i_writecount
      = demoKwrite.inode.i_writecount - 2
    ∧ demoKwrite.inode.i_writecount - 2 ≠ demoKwrite.inode.i_writecount - 1
    ∧ (drop_file_write_access demoKwrite).1.inode.i_writecount
      = demoKwrite.inode.i_writecount - 1 := by
  decide

/-- C6 amended: repeating drop_file_write_access is idempotent only on the
mount writer count — the second call finds the object's own bookkeeping
cleared (or the claim never held) and performs no further mnt_drop_write —
while the inode write-access counter is decremented unconditionally by
every invocation, so two calls decrement it twice. -/
theorem drop_write_access_idempotence (k : KernelState) :
    (drop_file_write_access (drop_file_write_access k).1).1.mnt.mnt_writers
      = (drop_file_write_access k).1.mnt.mnt_writers
    ∧ (drop_file_write_access (drop_file_write_access k).1).1.inode.i_writecount
      = k.inode.i_writecount - 2 := by
  cases hsp : special_file k.inode.i_mode <;>
  cases hcw : k.f.f_mnt_write_taken <;>
  constructor <;>
  simp [drop_file_write_access, file_release_write, file_check_writeable, hsp, hcw] <;>
  omega

/-- C7 counterexample: in a concrete teardown the live-count decrement
happens during synchronous teardown (__fput emits it), the deferred
callback file_free_rcu performs no decrement, and at the moment teardown
returns the exact live count has already dropped by one while the
reclamation is still pending — so between teardown and reclamation the
object is no longer counted. -/
theorem counter_dec_sync_counterexample :
    Event.nrFilesDec ∈ (__fput 0 demoK).2
    ∧ ((file_free_rcu demoK.f).2.contains Event.nrFilesDec) = false
    ∧ percpu_counter_sum ((__fput 0 demoK).1.ft.nr_files)
        = percpu_counter_sum demoK.ft.nr_files - 1
    ∧ (__fput 0 demoK).1.ft.rcu_pending = demoK.ft.rcu_pending + 1 := by
  decide

set_option maxHeartbeats 2000000 in
/-- C7 amended: the live-count decrement paired with admission's increment
happens exactly once per teardown, synchronously inside file_free at the
very end of teardown — after the resource-association clearing and
immediately before the deferred-reclamation callback is scheduled — never
at teardown start (every trace begins with the notification step), and the
deferred callback itself performs no decrement. -/
theorem counter_dec_at_teardown_end (cpu : Nat) (k : KernelState) :
    (__fput cpu k).2.count Event.nrFilesDec = 1
    ∧ List.Sublist [Event.clearAssoc, Event.nrFilesDec, Event.callRcu] (__fput cpu k).2
    ∧ ((file_free_rcu k.f).2.contains Event.nrFilesDec) = false
    ∧ (__fput cpu k).2.head? = some Event.fsnotifyClose := by
  cases hfa : fasyncTriggered k.f <;>
  cases hfr : fopReleaseTriggered k.f <;>
  cases hcd : cdevTriggered k.f k.inode <;>
  cases hrd : readDecTriggered k.f <;>
  cases hwr : writeDropTriggered k.f <;>
  cases hsp : special_file k.inode.i_mode <;>
  cases hcw : file_check_writeable k.f <;>
  simp [__fput, drop_file_write_access, file_free, file_free_rcu,
        hfa, hfr, hcd, hrd, hwr, hsp, hcw] <;>
  decide

set_option maxHeartbeats 2000000 in
/-- C8: the credentials captured at creation are released only during
deferred reclamation — no synchronous teardown trace contains put_cred, the
object still holds its credential reference when __fput returns, the
security and audit cleanup hooks do run inside synchronous teardown (so
they run while the credentials are held), and put_cred happens in the
deferred file_free_rcu callback. -/
theorem cred_release_deferred (cpu : Nat) (k : KernelState) :
    ((__fput cpu k).2.contains Event.putCred) = false
    ∧ (__fput cpu k).1.f.f_cred = k.f.f_cred
    ∧ List.Sublist [Event.securityFileFree, Event.imaFileFree] (__fput cpu k).2
    ∧ (file_free_rcu k.f).2 = [Event.putCred, Event.kmemCacheFree]
    ∧ (file_free_rcu k.f).1.f_cred = false := by
  refine ⟨?_, ?_, ?_, rfl, rfl⟩
  · cases hfa : fasyncTriggered k.f <;>
    cases hfr : fopReleaseTriggered k.f <;>
    cases hcd : cdevTriggered k.f k.inode <;>
    cases hrd : readDecTriggered k.f <;>
    cases hwr : writeDropTriggered k.f <;>
    cases hsp : special_file k.inode.i_mode <;>
    cases hcw : file_check_writeable k.f <;>
    simp [__fput, drop_file_write_access, file_free, hfa, hfr, hcd, hrd, hwr, hsp, hcw]
  · cases hrd : readDecTriggered k.f <;>
    cases hwr : writeDropTriggered k.f <;>
    cases hsp : special_file k.inode.i_mode <;>
    cases hcw : file_check_writeable k.f <;>
    simp [__fput, drop_file_write_access, file_release_write, file_free,
          hrd, hwr, hsp, hcw]
  · cases hfa : fasyncTriggered k.f <;>
    cases hfr : fopReleaseTriggered k.f <;>
    cases hcd : cdevTriggered k.f k.inode <;>
    cases hrd : readDecTriggered k.f <;>
    cases hwr : writeDropTriggered k.f <;>
    cases hsp : special_file k.inode.i_mode <;>
    cases hcw : file_check_writeable k.f <;>
    simp [__fput, drop_file_write_access, file_free, hfa, hfr, hcd, hrd, hwr, hsp, hcw] <;>
    decide

/-- C9: when acquire fails — the pool allocation returning NULL or the
security validation hook denying the new object — get_empty_filp returns
the error with the exact live count unchanged (the increment already
performed for the denied object is rolled back through file_free) and no
teardown step executing (the only emitted events are file_free's counter
decrement, debug check and call_rcu scheduling). -/
theorem acquire_failure_rolls_back (cpu : Nat) (capSysAdmin allocOk secOk : Bool)
    (st : FTState) (hcpu : cpu < st.nr_files.shards.length) :
    ((get_empty_filp cpu capSysAdmin allocOk secOk st).1 = FilpResult.noMem →
      (get_empty_filp cpu capSysAdmin allocOk secOk st).2.1 = st
      ∧ (get_empty_filp cpu capSysAdmin allocOk secOk st).2.2 = [])
    ∧ ((get_empty_filp cpu capSysAdmin allocOk secOk st).1 = FilpResult.secDenied →
      percpu_counter_sum_positive ((get_empty_filp cpu capSysAdmin allocOk secOk st).2.1.nr_files)
        = percpu_counter_sum_positive st.nr_files
      ∧ (get_empty_filp cpu capSysAdmin allocOk secOk st).2.2
          = [Event.nrFilesDec, Event.fileCheckState, Event.callRcu]
      ∧ (get_empty_filp cpu capSysAdmin allocOk secOk st).2.1.rcu_pending
          = st.rcu_pending + 1) := by
  have hlen : cpu < (percpu_counter_add cpu 1 st.nr_files).shards.length := by
    rw [percpu_counter_add_length]
    exact hcpu
  have hsum : percpu_counter_sum (percpu_counter_dec cpu (percpu_counter_inc cpu st.nr_files))
      = percpu_counter_sum st.nr_files := by
    have h1 := percpu_counter_sum_add cpu 1 st.nr_files hcpu
    have h2 := percpu_counter_sum_add cpu (-1) (percpu_counter_add cpu 1 st.nr_files) hlen
    simp only [percpu_counter_inc, percpu_counter_dec]
    omega
  unfold get_empty_filp filp_alloc_path
  by_cases h1 : ((st.max_files : Int) ≤ get_nr_files st ∧ capSysAdmin = false)
  · rw [if_pos h1]
    by_cases h2 : ((st.max_files : Int) ≤ percpu_counter_sum_positive st.nr_files)
    · rw [if_pos h2]
      constructor
      · intro h
        simp at h
      · intro h
        simp at h
    · rw [if_neg h2]
      cases allocOk
      · simp
      · cases secOk
        · simp [file_free, percpu_counter_sum_positive, hsum]
        · simp
  · rw [if_neg h1]
    cases allocOk
    · simp
    · cases secOk
      · simp [file_free, percpu_counter_sum_positive, hsum]
      · simp

/-- Witness for C9: a pool-allocation failure leaves the concrete table
untouched with an empty trace; a security denial restores the exact count,
emits only file_free's events and leaves one reclamation pending. -/
theorem acquire_failure_rolls_back_witness :
    ((get_empty_filp 0 false false true ftDemo).2.1 = ftDemo
      ∧ (get_empty_filp 0 false false true ftDemo).2.2 = [])
    ∧ (percpu_counter_sum_positive ((get_empty_filp 0 false true false ftDemo).2.1.nr_files)
        = percpu_counter_sum_positive ftDemo.nr_files
      ∧ (get_empty_filp 0 false true false ftDemo).2.2
          = [Event.nrFilesDec, Event.fileCheckState, Event.callRcu]
      ∧ (get_empty_filp 0 false true false ftDemo).2.1.rcu_pending = ftDemo.rcu_pending + 1) :=
  ⟨(acquire_failure_rolls_back 0 false false true ftDemo (by decide)).1 (by decide),
   (acquire_failure_rolls_back 0 false true false ftDemo (by decide)).2 (by decide)⟩

/-- C10 counterexample: on a concrete object put_filp's final decrement
releases neither the credentials nor the record immediately — the trace
contains no put_cred and no kmem_cache_free, the object still holds its
credential reference when put_filp returns, and instead a deferred
file_free_rcu callback is left pending (scheduled through call_rcu). -/
theorem put_filp_not_immediate_counterexample :
    ((put_filp 0 demoK).2.contains Event.putCred) = false
    ∧ ((put_filp 0 demoK).2.contains Event.kmemCacheFree) = false
    ∧ Event.callRcu ∈ (put_filp 0 demoK).2
    ∧ (put_filp 0 demoK).1.f.f_cred = true
    ∧ (put_filp 0 demoK).1.ft.rcu_pending = demoK.ft.rcu_pending + 1 := by
  decide

/-- C10 amended: when put_filp's decrement reaches zero it skips the full
Teardown Sequencer — the trace is exactly security_file_free followed by
file_free's counter decrement, debug check and call_rcu scheduling, with no
notification, lock, async-signal, operation-table-release, write-claim or
resource-association step — and the final release of credentials and the
pool return happen in the deferred file_free_rcu callback it schedules, not
immediately. -/
theorem put_filp_degraded (cpu : Nat) (k : KernelState) (h : k.f.f_count - 1 = 0) :
    (put_filp cpu k).2
      = [Event.securityFileFree, Event.nrFilesDec, Event.fileCheckState, Event.callRcu]
    ∧ (put_filp cpu k).1.ft.rcu_pending = k.ft.rcu_pending + 1
    ∧ ((put_filp cpu k).2.contains Event.putCred) = false
    ∧ (put_filp cpu k).1.f.f_cred = k.f.f_cred
    ∧ (file_free_rcu (put_filp cpu k).1.f).2 = [Event.putCred, Event.kmemCacheFree] := by
  simp [put_filp, h, file_free, file_free_rcu]

/-- Witness for C10 on the concrete last-holder object. -/
theorem put_filp_degraded_witness :
    (put_filp 0 demoK).2
      = [Event.securityFileFree, Event.nrFilesDec, Event.fileCheckState, Event.callRcu]
    ∧ (put_filp 0 demoK).1.ft.rcu_pending = demoK.ft.rcu_pending + 1
    ∧ ((put_filp 0 demoK).2.contains Event.putCred) = false
    ∧ (put_filp 0 demoK).1.f.f_cred = demoK.f.f_cred
    ∧ (file_free_rcu (put_filp 0 demoK).1.f).2 = [Event.putCred, Event.kmemCacheFree] :=
  put_filp_degraded 0 demoK (by decide)

/-- C2 counterexample: starting from the empty concrete table with ceiling
2 and batch 32, two unprivileged acquires on unit 0 succeed and bring the
exact aggregate live count to the ceiling; a third unprivileged acquire
nonetheless succeeds, because the fast approximate read (still 0, the
shard having not folded) stays below the ceiling and the exact slow-path
check is never reached. -/
theorem admission_exact_ceiling_counterexample :
    (get_empty_filp 0 false true true ftDemo).1 = FilpResult.ok filpInit
    ∧ (get_empty_filp 0 false true true ftDemo1).1 = FilpResult.ok filpInit
    ∧ (ftDemo2.max_files : Int) ≤ percpu_counter_sum_positive ftDemo2.nr_files
    ∧ get_nr_files ftDemo2 < (ftDemo2.max_files : Int)
    ∧ (get_empty_filp 0 false true true ftDemo2).1 = FilpResult.ok filpInit := by
  decide

/-- C2 amended: when both the fast approximate read and the exact aggregate
live count are at or above the ceiling, an unprivileged get_empty_filp
fails through the over path, while a caller holding CAP_SYS_ADMIN bypasses
the admission check entirely and (with the pool allocation and security
hook succeeding) still acquires a fresh object from the same state.  The
code admits an unprivileged caller whenever the fast approximate read is
below the ceiling, even if the exact count has reached it. -/
theorem admission_ceiling_amended (cpu : Nat) (allocOk secOk : Bool) (st : FTState)
    (hfast : (st.max_files : Int) ≤ get_nr_files st)
    (hexact : (st.max_files : Int) ≤ percpu_counter_sum_positive st.nr_files) :
    (get_empty_filp cpu false allocOk secOk st).1 = FilpResult.overLimit
    ∧ (get_empty_filp cpu true true true st).1 = FilpResult.ok filpInit := by
  constructor
  · unfold get_empty_filp
    rw [if_pos ⟨hfast, rfl⟩, if_pos hexact]
  · simp [get_empty_filp, filp_alloc_path, filpInit, zeroFile]

/-- Witness for C2 on the concrete table sitting exactly at its ceiling in
both the approximate and the exact reading. -/
theorem admission_ceiling_amended_witness :
    (get_empty_filp 0 false true true ftFull).1 = FilpResult.overLimit
    ∧ (get_empty_filp 0 true true true ftFull).1 = FilpResult.ok filpInit :=
  admission_ceiling_amended 0 true true ftFull (by decide) (by decide)
